import Mathlib

/-!
Verification of the UnHided media-proxy core (token codec, optional
authenticated encryption, batch generation merge rules, request-time
verifier) against its specification.

The repository source under scrutiny is `mediaflow_proxy/main.py`.  The
token codec (`encode_mediaflow_proxy_url`), the encryption handler and the
request schemas live in modules that are not part of the provided source
tree; where a claim depends on them they are modelled from the
specification, and each such definition carries a doc comment saying so.
Everything else is a direct shallow embedding of `main.py`.
-/

/-- Byte strings are modelled as lists of natural numbers; every byte
produced by the serializer is proved to be below 256. -/
abbrev Bytes := List Nat

/-- Model of a Python `dict[str, str]`: an insertion-ordered association
list with unique keys maintained by `Dict.insertKey`. -/
abbrev Dict := List (String × String)

/-- First-match association lookup, the model of `d[k]` / `d.get(k)`. -/
def Dict.lookupKey : Dict → String → Option String
  | [], _ => none
  | (k, v) :: rest, key => if k = key then some v else Dict.lookupKey rest key

/-- Model of the Python membership test `key in d`. -/
def Dict.containsKey (d : Dict) (key : String) : Bool :=
  (d.lookupKey key).isSome

/-- Model of Python dict assignment `d[key] = v`: overwrite in place when the
key exists, otherwise append (insertion order preserved). -/
def Dict.insertKey : Dict → String → String → Dict
  | [], key, v => [(key, v)]
  | (k, w) :: rest, key, v =>
    if k = key then (k, v) :: rest else (k, w) :: Dict.insertKey rest key v

/-- TokenPayload, the unit transported inside a token (spec section 3).
Modelled from the spec: the payload schema is not under `src/`. -/
structure TokenPayload where
  destination_url : String
  endpoint : String
  query_params : Dict
  request_headers : Dict
  response_headers : Dict
  expiration : Option Nat
  ip : Option String
  filename : Option String
  api_password : Option String
deriving DecidableEq, Repr

/-- Little-endian base-255 digit expansion of a natural number.  Digits are
all below 255, so the byte 255 can serve as a terminator. -/
def natDigits : Nat → List Nat
  | 0 => []
  | n + 1 => (n + 1) % 255 :: natDigits ((n + 1) / 255)
decreasing_by exact Nat.div_lt_self (Nat.succ_pos n) (by omega)

/-- Value of a little-endian base-255 digit list. -/
def fromDigits : List Nat → Nat
  | [] => 0
  | d :: ds => d + 255 * fromDigits ds

/-- Terminated serialization of a natural number: base-255 digits followed
by the terminator byte 255. -/
def serNatT (n : Nat) : Bytes := natDigits n ++ [255]

/-- Read base-255 digits up to (and consuming) the terminator byte 255;
reject any byte above 255. -/
def parseDigits : Bytes → Option (List Nat × Bytes)
  | [] => none
  | b :: bs =>
    if b = 255 then some ([], bs)
    else if b < 255 then
      match parseDigits bs with
      | some (ds, r) => some (b :: ds, r)
      | none => none
    else none

/-- Inverse of `serNatT`. -/
def parseNatT (bs : Bytes) : Option (Nat × Bytes) :=
  match parseDigits bs with
  | some (ds, r) => some (fromDigits ds, r)
  | none => none

/-- Big-endian three-byte encoding of one character (code points are below
2^24, so three bytes suffice). -/
def charBytes (c : Char) : Bytes :=
  [c.toNat / 65536, c.toNat / 256 % 256, c.toNat % 256]

/-- Concatenated three-byte encodings of a character list. -/
def charsBytes : List Char → Bytes
  | [] => []
  | c :: cs => charBytes c ++ charsBytes cs

/-- Read exactly `n` characters, three bytes each. -/
def parseChars : Nat → Bytes → Option (List Char × Bytes)
  | 0, bs => some ([], bs)
  | n + 1, b1 :: b2 :: b3 :: bs =>
    match parseChars n bs with
    | some (cs, r) => some (Char.ofNat (b1 * 65536 + b2 * 256 + b3) :: cs, r)
    | none => none
  | _ + 1, _ => none

/-- Length-prefixed string serialization. -/
def serStr (s : String) : Bytes :=
  serNatT s.data.length ++ charsBytes s.data

/-- Inverse of `serStr`. -/
def parseStr (bs : Bytes) : Option (String × Bytes) :=
  match parseNatT bs with
  | some (n, r1) =>
    match parseChars n r1 with
    | some (cs, r2) => some (String.mk cs, r2)
    | none => none
  | none => none

/-- Serialization of the key-value pairs of a dictionary. -/
def pairsBytes : List (String × String) → Bytes
  | [] => []
  | (k, v) :: ps => serStr k ++ serStr v ++ pairsBytes ps

/-- Length-prefixed dictionary serialization. -/
def serDict (d : Dict) : Bytes :=
  serNatT d.length ++ pairsBytes d

/-- Read exactly `n` key-value pairs. -/
def parsePairs : Nat → Bytes → Option (Dict × Bytes)
  | 0, bs => some ([], bs)
  | n + 1, bs =>
    match parseStr bs with
    | some (k, r1) =>
      match parseStr r1 with
      | some (v, r2) =>
        match parsePairs n r2 with
        | some (ps, r3) => some ((k, v) :: ps, r3)
        | none => none
      | none => none
    | none => none

/-- Inverse of `serDict`. -/
def parseDict (bs : Bytes) : Option (Dict × Bytes) :=
  match parseNatT bs with
  | some (n, r1) => parsePairs n r1
  | none => none

/-- Tagged serialization of an optional string (0 = absent, 1 = present). -/
def serOptStr : Option String → Bytes
  | none => [0]
  | some s => 1 :: serStr s

/-- Inverse of `serOptStr`. -/
def parseOptStr : Bytes → Option (Option String × Bytes)
  | 0 :: bs => some (none, bs)
  | 1 :: bs =>
    match parseStr bs with
    | some (s, r) => some (some s, r)
    | none => none
  | _ => none

/-- Tagged serialization of an optional natural number. -/
def serOptNat : Option Nat → Bytes
  | none => [0]
  | some n => 1 :: serNatT n

/-- Inverse of `serOptNat`. -/
def parseOptNat : Bytes → Option (Option Nat × Bytes)
  | 0 :: bs => some (none, bs)
  | 1 :: bs =>
    match parseNatT bs with
    | some (n, r) => some (some n, r)
    | none => none
  | _ => none

/-- Modelled from the spec: the canonical, deterministically ordered compact
byte representation of a TokenPayload (spec section 4.1); the serializer of
the real codec is not under `src/`.  Field order is fixed. -/
def serializePayload (p : TokenPayload) : Bytes :=
  serStr p.destination_url ++ serStr p.endpoint ++ serDict p.query_params ++
    serDict p.request_headers ++ serDict p.response_headers ++
    serOptNat p.expiration ++ serOptStr p.ip ++ serOptStr p.filename ++
    serOptStr p.api_password

/-- Parse a serialized payload, returning the unconsumed remainder. -/
def parsePayloadAux (bs : Bytes) : Option (TokenPayload × Bytes) :=
  match parseStr bs with
  | none => none
  | some (du, r1) =>
    match parseStr r1 with
    | none => none
    | some (ep, r2) =>
      match parseDict r2 with
      | none => none
      | some (qp, r3) =>
        match parseDict r3 with
        | none => none
        | some (rq, r4) =>
          match parseDict r4 with
          | none => none
          | some (rs, r5) =>
            match parseOptNat r5 with
            | none => none
            | some (ex, r6) =>
              match parseOptStr r6 with
              | none => none
              | some (ipv, r7) =>
                match parseOptStr r7 with
                | none => none
                | some (fn, r8) =>
                  match parseOptStr r8 with
                  | none => none
                  | some (ap, r9) =>
                    some (⟨du, ep, qp, rq, rs, ex, ipv, fn, ap⟩, r9)

/-- Parse a serialized payload and require full consumption of the input
(trailing garbage is a malformed token). -/
def parsePayloadFull (bs : Bytes) : Option TokenPayload :=
  match parsePayloadAux bs with
  | some (p, []) => some p
  | _ => none

/-- Every base-255 digit is below 255. -/
theorem natDigits_lt (n : Nat) : ∀ d ∈ natDigits n, d < 255 := by
  induction n using Nat.strong_induction_on with
  | _ n ih =>
    match n with
    | 0 => simp [natDigits]
    | m + 1 =>
      rw [natDigits]
      intro d hd
      rcases List.mem_cons.mp hd with h | h
      · omega
      · exact ih ((m + 1) / 255) (Nat.div_lt_self (Nat.succ_pos m) (by omega)) d h

/-- Digit expansion round-trips through evaluation. -/
theorem fromDigits_natDigits (n : Nat) : fromDigits (natDigits n) = n := by
  induction n using Nat.strong_induction_on with
  | _ n ih =>
    match n with
    | 0 => simp [natDigits, fromDigits]
    | m + 1 =>
      rw [natDigits, fromDigits, ih ((m + 1) / 255) (Nat.div_lt_self (Nat.succ_pos m) (by omega))]
      omega

/-- Reading digits from a serialized digit list consumes exactly that list. -/
theorem parseDigits_append (ds : List Nat) (r : Bytes) (h : ∀ d ∈ ds, d < 255) :
    parseDigits (ds ++ 255 :: r) = some (ds, r) := by
  induction ds with
  | nil => simp [parseDigits]
  | cons d ds ih =>
    have hd : d < 255 := h d (by simp)
    have hrec := ih (fun x hx => h x (by simp [hx]))
    simp [parseDigits, Nat.ne_of_lt hd, hd, hrec]

/-- Round trip for terminated natural-number serialization. -/
theorem parseNatT_serNatT (n : Nat) (r : Bytes) :
    parseNatT (serNatT n ++ r) = some (n, r) := by
  rw [serNatT, List.append_assoc, List.singleton_append]
  simp [parseNatT, parseDigits_append (natDigits n) r (natDigits_lt n), fromDigits_natDigits]

/-- Code points fit in three bytes. -/
theorem char_toNat_lt (c : Char) : c.toNat < 1114112 := by
  rcases c.valid with h | ⟨h1, h2⟩ <;> simp [Char.toNat] <;> omega

/-- Round trip for the fixed-width character encoding. -/
theorem parseChars_charsBytes (cs : List Char) (r : Bytes) :
    parseChars cs.length (charsBytes cs ++ r) = some (cs, r) := by
  induction cs with
  | nil => simp [parseChars, charsBytes]
  | cons c cs ih =>
    have h := char_toNat_lt c
    have harith : c.toNat / 65536 * 65536 + c.toNat / 256 % 256 * 256 + c.toNat % 256 =
        c.toNat := by omega
    simp [charsBytes, charBytes, parseChars, List.append_assoc, ih, harith, Char.ofNat_toNat]

/-- Round trip for string serialization. -/
theorem parseStr_serStr (s : String) (r : Bytes) :
    parseStr (serStr s ++ r) = some (s, r) := by
  cases s with
  | mk cs =>
    rw [serStr, List.append_assoc]
    simp [parseStr, parseNatT_serNatT, parseChars_charsBytes]

/-- Round trip for dictionary pair lists. -/
theorem parsePairs_pairsBytes (d : Dict) (r : Bytes) :
    parsePairs d.length (pairsBytes d ++ r) = some (d, r) := by
  induction d with
  | nil => simp [parsePairs, pairsBytes]
  | cons p ps ih =>
    obtain ⟨k, v⟩ := p
    simp [pairsBytes, parsePairs, List.append_assoc, parseStr_serStr, ih]

/-- Round trip for dictionary serialization. -/
theorem parseDict_serDict (d : Dict) (r : Bytes) :
    parseDict (serDict d ++ r) = some (d, r) := by
  rw [serDict, List.append_assoc]
  simp [parseDict, parseNatT_serNatT, parsePairs_pairsBytes]

/-- Round trip for optional strings. -/
theorem parseOptStr_serOptStr (o : Option String) (r : Bytes) :
    parseOptStr (serOptStr o ++ r) = some (o, r) := by
  cases o with
  | none => simp [serOptStr, parseOptStr]
  | some s => simp [serOptStr, parseOptStr, parseStr_serStr]

/-- Round trip for optional natural numbers. -/
theorem parseOptNat_serOptNat (o : Option Nat) (r : Bytes) :
    parseOptNat (serOptNat o ++ r) = some (o, r) := by
  cases o with
  | none => simp [serOptNat, parseOptNat]
  | some n => simp [serOptNat, parseOptNat, parseNatT_serNatT]

/-- Round trip for the full payload serializer, with remainder. -/
theorem parsePayloadAux_serializePayload (p : TokenPayload) (r : Bytes) :
    parsePayloadAux (serializePayload p ++ r) = some (p, r) := by
  obtain ⟨du, ep, qp, rq, rs, ex, ipv, fn, ap⟩ := p
  simp [serializePayload, parsePayloadAux, List.append_assoc, parseStr_serStr,
    parseDict_serDict, parseOptNat_serOptNat, parseOptStr_serOptStr]

/-- Round trip for the full payload serializer. -/
theorem parsePayloadFull_serializePayload (p : TokenPayload) :
    parsePayloadFull (serializePayload p) = some p := by
  have h := parsePayloadAux_serializePayload p []
  rw [List.append_nil] at h
  simp [parsePayloadFull, h]

/-- Bytes of a serialized natural number are below 256. -/
theorem serNatT_lt (n : Nat) : ∀ b ∈ serNatT n, b < 256 := by
  intro b hb
  rw [serNatT] at hb
  rcases List.mem_append.mp hb with h | h
  · exact Nat.lt_trans (natDigits_lt n b h) (by omega)
  · simp at h; omega

/-- Bytes of encoded characters are below 256. -/
theorem charsBytes_lt (cs : List Char) : ∀ b ∈ charsBytes cs, b < 256 := by
  induction cs with
  | nil => simp [charsBytes]
  | cons c cs ih =>
    intro b hb
    rw [charsBytes] at hb
    rcases List.mem_append.mp hb with h | h
    · have hc := char_toNat_lt c
      simp [charBytes] at h
      rcases h with h | h | h <;> omega
    · exact ih b h

/-- Bytes of a serialized string are below 256. -/
theorem serStr_lt (s : String) : ∀ b ∈ serStr s, b < 256 := by
  intro b hb
  rw [serStr] at hb
  rcases List.mem_append.mp hb with h | h
  · exact serNatT_lt _ b h
  · exact charsBytes_lt _ b h

/-- Bytes of serialized pair lists are below 256. -/
theorem pairsBytes_lt (d : Dict) : ∀ b ∈ pairsBytes d, b < 256 := by
  induction d with
  | nil => simp [pairsBytes]
  | cons p ps ih =>
    obtain ⟨k, v⟩ := p
    intro b hb
    rw [pairsBytes] at hb
    rcases List.mem_append.mp hb with h | h
    · rcases List.mem_append.mp h with h2 | h2
      · exact serStr_lt k b h2
      · exact serStr_lt v b h2
    · exact ih b h

/-- Bytes of a serialized dictionary are below 256. -/
theorem serDict_lt (d : Dict) : ∀ b ∈ serDict d, b < 256 := by
  intro b hb
  rcases List.mem_append.mp hb with h | h
  · exact serNatT_lt _ b h
  · exact pairsBytes_lt _ b h

/-- Bytes of a serialized optional string are below 256. -/
theorem serOptStr_lt (o : Option String) : ∀ b ∈ serOptStr o, b < 256 := by
  cases o with
  | none => simp [serOptStr]
  | some s =>
    intro b hb
    rw [serOptStr] at hb
    rcases List.mem_cons.mp hb with h | h
    · omega
    · exact serStr_lt s b h

/-- Bytes of a serialized optional natural number are below 256. -/
theorem serOptNat_lt (o : Option Nat) : ∀ b ∈ serOptNat o, b < 256 := by
  cases o with
  | none => simp [serOptNat]
  | some n =>
    intro b hb
    rw [serOptNat] at hb
    rcases List.mem_cons.mp hb with h | h
    · omega
    · exact serNatT_lt n b h

/-- Every byte of a serialized payload is below 256. -/
theorem serializePayload_lt (p : TokenPayload) : ∀ b ∈ serializePayload p, b < 256 := by
  intro b hb
  rw [serializePayload] at hb
  simp only [List.append_assoc, List.mem_append] at hb
  rcases hb with h | h | h | h | h | h | h | h | h
  · exact serStr_lt _ b h
  · exact serStr_lt _ b h
  · exact serDict_lt _ b h
  · exact serDict_lt _ b h
  · exact serDict_lt _ b h
  · exact serOptNat_lt _ b h
  · exact serOptStr_lt _ b h
  · exact serOptStr_lt _ b h
  · exact serOptStr_lt _ b h

/-- Modelled from the spec: the Encryption Handler (spec section 4.2) lives
in `mediaflow_proxy.utils.crypto_utils`, which is not under `src/`.  It
holds only key material derived deterministically from the password alone
(no key store, no salt file). -/
structure EncryptionHandler where
  password : String
deriving DecidableEq, Repr

/-- Key bytes derived deterministically from the password alone. -/
def keyBytes (password : String) : Bytes :=
  password.data.map Char.toNat

/-- Keystream byte at a given position, a deterministic function of key,
nonce and position; models the stream produced by the AEAD primitive. -/
def ksByte (key nonce : Bytes) (i : Nat) : Nat :=
  List.foldl (fun a b => a * 131 + b + 17) 0 (key ++ nonce ++ [i])

/-- Byte-wise masking of a plaintext with the keystream (addition mod 256)
starting at position `i`. -/
def maskBytes (key nonce : Bytes) (i : Nat) : Bytes → Bytes
  | [] => []
  | b :: bs => (b + ksByte key nonce i) % 256 :: maskBytes key nonce (i + 1) bs

/-- Inverse of `maskBytes` on bytes below 256. -/
def unmaskBytes (key nonce : Bytes) (i : Nat) : Bytes → Bytes
  | [] => []
  | b :: bs =>
    (b + 256 - ksByte key nonce i % 256) % 256 :: unmaskBytes key nonce (i + 1) bs

/-- Authentication tag over key, nonce and ciphertext. -/
def macTag (key nonce ct : Bytes) : Nat :=
  List.foldl (fun a b => a * 257 + b + 1) 0 (key ++ nonce ++ ct)

/-- Modelled from the spec: `encrypt(plaintext) -> nonce ‖ ciphertext ‖ tag`
(spec section 4.2).  The nonce argument models the fresh randomness drawn at
each call; it travels alongside the ciphertext (length-prefixed), and the
tag is appended. -/
def EncryptionHandler.encryptBytes (h : EncryptionHandler) (nonce pt : Bytes) : Bytes :=
  let key := keyBytes h.password
  let nn := nonce.map (· % 256)
  let ct := maskBytes key nn 0 pt
  serNatT nn.length ++ nn ++ serNatT ct.length ++ ct ++ serNatT (macTag key nn ct)

/-- Split off exactly `n` leading bytes, failing when fewer are available. -/
def takeExact (n : Nat) (bs : Bytes) : Option (Bytes × Bytes) :=
  if n ≤ bs.length then some (bs.take n, bs.drop n) else none

/-- Modelled from the spec: `decrypt(blob) -> plaintext`, failing
(AuthenticationFailed) when the authentication tag does not verify
(spec section 4.2). -/
def EncryptionHandler.decryptBytes (h : EncryptionHandler) (blob : Bytes) : Option Bytes :=
  let key := keyBytes h.password
  match parseNatT blob with
  | none => none
  | some (nLen, r1) =>
    match takeExact nLen r1 with
    | none => none
    | some (nn, r2) =>
      match parseNatT r2 with
      | none => none
      | some (cLen, r3) =>
        match takeExact cLen r3 with
        | none => none
        | some (ct, r4) =>
          match parseNatT r4 with
          | none => none
          | some (tag, r5) =>
            if r5 = [] ∧ tag = macTag key nn ct then some (unmaskBytes key nn 0 ct)
            else none

/-- Unmasking inverts masking on byte sequences below 256. -/
theorem unmaskBytes_maskBytes (key nonce : Bytes) (i : Nat) (pt : Bytes)
    (h : ∀ b ∈ pt, b < 256) :
    unmaskBytes key nonce i (maskBytes key nonce i pt) = pt := by
  induction pt generalizing i with
  | nil => simp [maskBytes, unmaskBytes]
  | cons b bs ih =>
    have hb : b < 256 := h b (by simp)
    rw [maskBytes, unmaskBytes, ih (i + 1) (fun x hx => h x (by simp [hx]))]
    simp only [List.cons.injEq, and_true]
    omega

/-- Masking preserves length. -/
theorem maskBytes_length (key nonce : Bytes) (i : Nat) (pt : Bytes) :
    (maskBytes key nonce i pt).length = pt.length := by
  induction pt generalizing i with
  | nil => rfl
  | cons b bs ih => simp [maskBytes, ih]

/-- Splitting a known-length block off an appended list. -/
theorem takeExact_append (xs r : Bytes) : takeExact xs.length (xs ++ r) = some (xs, r) := by
  simp [takeExact, List.take_left, List.drop_left]

/-- Decryption with the right password inverts encryption. -/
theorem decryptBytes_encryptBytes (h : EncryptionHandler) (nonce pt : Bytes)
    (hpt : ∀ b ∈ pt, b < 256) :
    h.decryptBytes (h.encryptBytes nonce pt) = some pt := by
  have hnil : ∀ n : Nat, parseNatT (serNatT n) = some (n, []) := by
    intro n
    have := parseNatT_serNatT n []
    rwa [List.append_nil] at this
  rw [EncryptionHandler.encryptBytes, EncryptionHandler.decryptBytes]
  simp only [List.append_assoc, parseNatT_serNatT, takeExact_append, hnil]
  simp [unmaskBytes_maskBytes _ _ _ _ hpt]

/-- Modelled from the spec: `encode(payload, password?) -> token` (spec
section 4.1).  Serialize to the canonical byte form; without a password the
bytes are the token directly, with a password they are sealed by the
Encryption Handler.  The base64url transport step, a fixed bijection between
byte blobs and URL-safe strings, is elided: tokens are modelled as byte
blobs.  The nonce argument models the fresh randomness drawn per call. -/
def encodeToken (p : TokenPayload) (password : Option String) (nonce : Bytes) : Bytes :=
  match password with
  | none => serializePayload p
  | some pw => (EncryptionHandler.mk pw).encryptBytes nonce (serializePayload p)

/-- Modelled from the spec: `decode(token, password?) -> payload` (spec
section 4.1).  Unseal via the Encryption Handler when a password is
supplied, then parse the canonical structure; every failure is `none`
(Malformed / AuthenticationFailed). -/
def decodeToken (token : Bytes) (password : Option String) : Option TokenPayload :=
  match password with
  | none => parsePayloadFull token
  | some pw =>
    match (EncryptionHandler.mk pw).decryptBytes token with
    | none => none
    | some pt => parsePayloadFull pt

/-- Locate the first occurrence of the scheme separator "://", returning the
characters before and after it. -/
def uriSplit : List Char → Option (List Char × List Char)
  | [] => none
  | ':' :: '/' :: '/' :: rest => some ([], rest)
  | c :: cs =>
    match uriSplit cs with
    | some (pre, post) => some (c :: pre, post)
    | none => none

/-- Modelled from the spec: `destination_url` must be a non-empty absolute
URI (spec section 3); validity is modelled as a non-empty scheme, the
separator "://" and a non-empty remainder. -/
def isAbsoluteUri (s : String) : Bool :=
  match uriSplit s.data with
  | some (pre, post) => !pre.isEmpty && !post.isEmpty
  | none => false

/-- Modelled from the spec: a valid TokenPayload has a validated absolute
`destination_url` and a present (non-empty) `endpoint` (spec section 3
invariants). -/
def validTokenPayload (p : TokenPayload) : Bool :=
  isAbsoluteUri p.destination_url && !p.endpoint.isEmpty

/-- Codec round trip, shared by the claims below: decoding an encoded
payload with the password it was encoded under recovers it, in both modes
and for every nonce. -/
theorem decodeToken_encodeToken (p : TokenPayload) (pw : Option String) (nonce : Bytes) :
    decodeToken (encodeToken p pw nonce) pw = some p := by
  cases pw with
  | none => simp [encodeToken, decodeToken, parsePayloadFull_serializePayload]
  | some s =>
    rw [encodeToken, decodeToken,
      decryptBytes_encryptBytes (EncryptionHandler.mk s) nonce (serializePayload p)
        (serializePayload_lt p)]
    simp [parsePayloadFull_serializePayload]

/-- C1: for every valid TokenPayload, in both the password-set and the
password-unset mode, decoding the result of encoding the payload with the
same password returns a payload equal to the original. -/
theorem claim_C1_decode_encode_roundtrip (p : TokenPayload) (pw : Option String)
    (nonce : Bytes) (hp : validTokenPayload p = true) :
    decodeToken (encodeToken p pw nonce) pw = some p := by
  clear hp
  exact decodeToken_encodeToken p pw nonce

/-- Concrete payload used by witnesses. -/
def samplePayload : TokenPayload :=
  { destination_url := "https://example.org/video.mp4"
    endpoint := "/proxy/stream"
    query_params := [("quality", "high")]
    request_headers := [("referer", "https://example.org")]
    response_headers := [("content-type", "video/mp4")]
    expiration := some 1735689600
    ip := some "10.0.0.7"
    filename := some "video.mp4"
    api_password := some "pw" }

/-- Witness for C1 at a concrete payload, password and nonce. -/
theorem claim_C1_decode_encode_roundtrip_witness :
    validTokenPayload samplePayload = true ∧
      decodeToken (encodeToken samplePayload (some "pw") [9, 300]) (some "pw") =
        some samplePayload :=
  ⟨by decide, claim_C1_decode_encode_roundtrip samplePayload (some "pw") [9, 300] (by decide)⟩

/-- HTTP error as raised by `HTTPException`: status code and detail. -/
structure HTTPError where
  status_code : Nat
  detail : String
deriving DecidableEq, Repr

/-- Shallow embedding of `verify_api_key` (main.py lines 73-78).  The two
credential channels (query parameter and header, both with
`auto_error=False`) are `none` when absent; the configured password
`settings.api_password` is a string whose empty value is falsy in Python,
so `if not settings.api_password: return` authorizes unconditionally. -/
def verify_api_key (api_key api_key_alt : Option String) (api_password : String) :
    Except HTTPError Unit :=
  if api_password = "" then Except.ok ()
  else if api_key = some api_password ∨ api_key_alt = some api_password then Except.ok ()
  else Except.error ⟨403, "Could not validate credentials"⟩

/-- Python truthiness of an optional string: `None` and the empty string are
falsy. -/
def pyTruthy : Option String → Bool
  | none => false
  | some s => !s.isEmpty

/-- Single-URL generation request (spec section 6).  Modelled from the spec:
the pydantic schema `GenerateUrlRequest` is not under `src/`. -/
structure GenerateUrlRequest where
  mediaflow_proxy_url : String
  endpoint : String
  destination_url : String
  query_params : Dict
  request_headers : Dict
  response_headers : Dict
  api_password : Option String
  expiration : Option Nat
  ip : Option String
  filename : Option String
deriving DecidableEq, Repr

/-- Per-item batch request fields (spec section 6).  Modelled from the spec:
the pydantic schema `MultiUrlRequestItem` is not under `src/`; per the spec
an item carries endpoint, destination_url, query_params, headers and
filename, and no expiration or ip of its own. -/
structure MultiUrlRequestItem where
  endpoint : String
  destination_url : String
  query_params : Dict
  request_headers : Dict
  response_headers : Dict
  filename : Option String
deriving DecidableEq, Repr

/-- Batch generation request: shared defaults plus the ordered item list
(spec section 6).  Modelled from the spec: the pydantic schema
`GenerateMultiUrlRequest` is not under `src/`. -/
structure GenerateMultiUrlRequest where
  mediaflow_proxy_url : String
  api_password : Option String
  expiration : Option Nat
  ip : Option String
  urls : List MultiUrlRequestItem
deriving DecidableEq, Repr

/-- Embedding of the conditional expression
`EncryptionHandler(request.api_password) if request.api_password else None`
(main.py lines 116 and 147). -/
def handlerOf (api_password : Option String) : Option EncryptionHandler :=
  if pyTruthy api_password then some (EncryptionHandler.mk (api_password.getD ""))
  else none

/-- Result of `encode_mediaflow_proxy_url`: the constructed proxy URL with
the opaque token appended to it as a query parameter (spec section 6).
Modelled from the spec: the function is in `mediaflow_proxy.utils.http_utils`,
not under `src/`. -/
structure ProxyUrl where
  base : String
  token : Bytes
deriving DecidableEq, Repr

/-- Modelled from the spec: `encode_mediaflow_proxy_url` packs its arguments
into a TokenPayload (spec section 3) and encodes it via the Token Codec,
sealing with the handler's password when a handler is given (spec sections
4.1 and 6).  The nonce models the randomness drawn when sealing. -/
def encode_mediaflow_proxy_url (mediaflow_proxy_url endpoint destination_url : String)
    (query_params request_headers response_headers : Dict)
    (encryption_handler : Option EncryptionHandler)
    (expiration : Option Nat) (ip : Option String) (filename : Option String)
    (nonce : Bytes) : ProxyUrl :=
  { base := mediaflow_proxy_url ++ endpoint
    token := encodeToken
      { destination_url := destination_url
        endpoint := endpoint
        query_params := query_params
        request_headers := request_headers
        response_headers := response_headers
        expiration := expiration
        ip := ip
        filename := filename
        api_password := encryption_handler.map (fun h => h.password) }
      (encryption_handler.map (fun h => h.password)) nonce }

/-- Response body of `generate_url` (main.py line 137). -/
structure UrlResponse where
  url : ProxyUrl
deriving DecidableEq, Repr

/-- Shallow embedding of the `generate_url` endpoint handler (main.py lines
115-137).  `request.query_params.copy()` has value semantics here (the heap
model below covers the mutation aspect), and `ip_str` mirrors
`str(request.ip) if request.ip else None` on the already-textual ip. -/
def generate_url (request : GenerateUrlRequest) (nonce : Bytes) : UrlResponse :=
  let encryption_handler := handlerOf request.api_password
  let query_params := request.query_params
  let query_params :=
    if !(query_params.containsKey "api_password") && pyTruthy request.api_password then
      query_params.insertKey "api_password" (request.api_password.getD "")
    else query_params
  let ip_str := request.ip
  { url := encode_mediaflow_proxy_url request.mediaflow_proxy_url request.endpoint
      request.destination_url query_params request.request_headers
      request.response_headers encryption_handler request.expiration ip_str
      request.filename nonce }

/-- Response body of the deprecated endpoint (main.py line 106). -/
structure EncodedUrlResponse where
  encoded_url : ProxyUrl
deriving DecidableEq, Repr

/-- Shallow embedding of the deprecated `generate_encrypted_or_encoded_url`
endpoint (main.py lines 103-106): it returns the `url` field computed by
`generate_url` under the key `encoded_url`. -/
def generate_encrypted_or_encoded_url (request : GenerateUrlRequest) (nonce : Bytes) :
    EncodedUrlResponse :=
  { encoded_url := (generate_url request nonce).url }

/-- Shallow embedding of the closure `_process_url_item` (main.py lines
150-166).  The encryption handler and `ip_str` are computed once in the
enclosing `generate_urls` (lines 147-148) and captured; they are passed
here explicitly, together with the nonce drawn for this item. -/
def _process_url_item (encryption_handler : Option EncryptionHandler)
    (request : GenerateMultiUrlRequest) (url_item : MultiUrlRequestItem)
    (nonce : Bytes) : ProxyUrl :=
  let query_params := url_item.query_params
  let query_params :=
    if !(query_params.containsKey "api_password") && pyTruthy request.api_password then
      query_params.insertKey "api_password" (request.api_password.getD "")
    else query_params
  encode_mediaflow_proxy_url request.mediaflow_proxy_url url_item.endpoint
    url_item.destination_url query_params url_item.request_headers
    url_item.response_headers encryption_handler request.expiration request.ip
    url_item.filename nonce

/-- Response body of `generate_urls` (main.py line 170). -/
structure UrlsResponse where
  urls : List ProxyUrl
deriving DecidableEq, Repr

/-- Shallow embedding of the `generate_urls` endpoint handler (main.py lines
146-170).  The handler is constructed once from the shared password (line
147); the task list built in input order and awaited by `asyncio.gather`,
which returns results in task order, is an index-aware map, with `nonces i`
the randomness drawn while sealing item `i`. -/
def generate_urls (request : GenerateMultiUrlRequest) (nonces : Nat → Bytes) :
    UrlsResponse :=
  let encryption_handler := handlerOf request.api_password
  { urls := request.urls.mapIdx (fun i url_item =>
      _process_url_item encryption_handler request url_item (nonces i)) }

/-- Modelled from the spec: structural validity of one batch item, checked
by the schema layer before the handler body runs — `destination_url` must
be a valid absolute URI and `endpoint` must be present (spec section 3
invariants and section 4.3). -/
def validItem (item : MultiUrlRequestItem) : Bool :=
  isAbsoluteUri item.destination_url && !item.endpoint.isEmpty

/-- Index of the first invalid item of a batch, if any. -/
def firstInvalid : List MultiUrlRequestItem → Option Nat
  | [] => none
  | item :: rest =>
    if validItem item then (firstInvalid rest).map (· + 1) else some 0

/-- Modelled from the spec: a batch validation error surfaces the offending
item's index (spec section 7). -/
structure BatchValidationError where
  index : Nat
deriving DecidableEq, Repr

/-- Modelled from the spec: the request boundary validates every item before
the handler body runs; only when all items pass does `generate_urls`
produce a response, otherwise the whole call fails with a structural
validation error (spec sections 4.3 and 7). -/
def generate_urls_validated (request : GenerateMultiUrlRequest) (nonces : Nat → Bytes) :
    Except BatchValidationError UrlsResponse :=
  match firstInvalid request.urls with
  | some i => Except.error ⟨i⟩
  | none => Except.ok (generate_urls request nonces)

/-- C2: with a non-empty configured password, the verifier authorizes
exactly when at least one of the two supplied credentials equals that
password, and otherwise raises the generic 403 forbidden denial. -/
theorem claim_C2_verify_credentials (api_key api_key_alt : Option String)
    (pw : String) (hpw : pw ≠ "") :
    (verify_api_key api_key api_key_alt pw = Except.ok () ↔
      (api_key = some pw ∨ api_key_alt = some pw)) ∧
    (¬(api_key = some pw ∨ api_key_alt = some pw) →
      verify_api_key api_key api_key_alt pw =
        Except.error ⟨403, "Could not validate credentials"⟩) := by
  constructor
  · constructor
    · intro h
      by_contra hc
      rw [verify_api_key, if_neg hpw, if_neg hc] at h
      exact Except.noConfusion h
    · intro h
      rw [verify_api_key, if_neg hpw, if_pos h]
  · intro h
    rw [verify_api_key, if_neg hpw, if_neg h]

/-- Witness for C2: a matching header credential authorizes, and with both
credentials wrong the generic 403 denial is raised. -/
theorem claim_C2_verify_credentials_witness :
    ("secret" : String) ≠ "" ∧
      ((verify_api_key (some "nope") (some "secret") "secret" = Except.ok () ↔
        ((some "nope" : Option String) = some "secret" ∨
          (some "secret" : Option String) = some "secret")) ∧
      (¬((some "nope" : Option String) = some "secret" ∨
          (some "secret" : Option String) = some "secret") →
        verify_api_key (some "nope") (some "secret") "secret" =
          Except.error ⟨403, "Could not validate credentials"⟩)) :=
  ⟨by decide, claim_C2_verify_credentials (some "nope") (some "secret") "secret" (by decide)⟩

/-- C3: with an empty configured password every request is authorized
unconditionally, including one carrying no credential in either channel. -/
theorem claim_C3_open_mode (api_key api_key_alt : Option String) :
    verify_api_key api_key api_key_alt "" = Except.ok () := by
  rw [verify_api_key, if_pos rfl]

/-- Absence of invalid items is equivalent to `firstInvalid` finding none. -/
theorem firstInvalid_eq_none_iff (l : List MultiUrlRequestItem) :
    firstInvalid l = none ↔ ∀ item ∈ l, validItem item = true := by
  induction l with
  | nil => simp [firstInvalid]
  | cons item rest ih =>
    rw [firstInvalid]
    by_cases h : validItem item = true
    · simp [h, ih, Option.map_eq_none]
    · simp [h]

/-- C4: a batch containing an item that fails validation makes the whole
call fail; no list of URLs is observable in that case. -/
theorem claim_C4_batch_atomicity (request : GenerateMultiUrlRequest)
    (nonces : Nat → Bytes) (i : Nat) (h : i < request.urls.length)
    (hbad : validItem (request.urls.get ⟨i, h⟩) = false) :
    ∃ e, generate_urls_validated request nonces = Except.error e := by
  rw [generate_urls_validated]
  cases hfi : firstInvalid request.urls with
  | some j => exact ⟨⟨j⟩, rfl⟩
  | none =>
    have hall := (firstInvalid_eq_none_iff request.urls).mp hfi
    have hmem : request.urls.get ⟨i, h⟩ ∈ request.urls := List.get_mem _ _ _
    rw [hall _ hmem] at hbad
    exact Bool.noConfusion hbad

/-- Item used by the batch witnesses: structurally invalid destination. -/
def badItem : MultiUrlRequestItem :=
  { endpoint := "/proxy/stream"
    destination_url := "not a uri"
    query_params := []
    request_headers := []
    response_headers := []
    filename := none }

/-- Item used by the batch witnesses: structurally valid. -/
def goodItem : MultiUrlRequestItem :=
  { endpoint := "/proxy/stream"
    destination_url := "https://example.org/a.mp4"
    query_params := [("q", "1")]
    request_headers := []
    response_headers := []
    filename := some "a.mp4" }

/-- Batch request used by the C4 witness: the second item is invalid. -/
def badBatchRequest : GenerateMultiUrlRequest :=
  { mediaflow_proxy_url := "https://proxy.example"
    api_password := some "pw"
    expiration := some 1735689600
    ip := none
    urls := [goodItem, badItem] }

/-- Witness for C4: the batch with an invalid second item fails whole. -/
theorem claim_C4_batch_atomicity_witness :
    1 < badBatchRequest.urls.length ∧
      validItem (badBatchRequest.urls.get ⟨1, by decide⟩) = false ∧
      ∃ e, generate_urls_validated badBatchRequest (fun _ => [3]) = Except.error e :=
  ⟨by decide, by decide,
    claim_C4_batch_atomicity badBatchRequest (fun _ => [3]) 1 (by decide) (by decide)⟩

/-- C5: a batch whose items all pass validation succeeds and returns exactly
one encoded URL per item, index-aligned: the URL at position i is produced
by processing the item at position i (with the nonce drawn for i). -/
theorem claim_C5_batch_index_aligned (request : GenerateMultiUrlRequest)
    (nonces : Nat → Bytes) (hall : ∀ item ∈ request.urls, validItem item = true) :
    ∃ resp, generate_urls_validated request nonces = Except.ok resp ∧
      resp.urls.length = request.urls.length ∧
      ∀ i (h : i < request.urls.length),
        resp.urls[i]? = some (_process_url_item (handlerOf request.api_password)
          request (request.urls.get ⟨i, h⟩) (nonces i)) := by
  have hfi : firstInvalid request.urls = none := (firstInvalid_eq_none_iff request.urls).mpr hall
  refine ⟨generate_urls request nonces, ?_, ?_, ?_⟩
  · rw [generate_urls_validated, hfi]
  · simp [generate_urls, List.length_mapIdx]
  · intro i h
    simp [generate_urls, List.getElem?_mapIdx, h]

/-- Batch request used by the C5 witness: all items valid. -/
def goodBatchRequest : GenerateMultiUrlRequest :=
  { mediaflow_proxy_url := "https://proxy.example"
    api_password := some "pw"
    expiration := none
    ip := some "10.0.0.7"
    urls := [goodItem, goodItem] }

/-- Witness for C5 at a concrete all-valid batch. -/
theorem claim_C5_batch_index_aligned_witness :
    (∀ item ∈ goodBatchRequest.urls, validItem item = true) ∧
      ∃ resp, generate_urls_validated goodBatchRequest (fun i => [i]) = Except.ok resp ∧
        resp.urls.length = goodBatchRequest.urls.length ∧
        ∀ i (h : i < goodBatchRequest.urls.length),
          resp.urls[i]? = some (_process_url_item (handlerOf goodBatchRequest.api_password)
            goodBatchRequest (goodBatchRequest.urls.get ⟨i, h⟩) [i]) :=
  ⟨by decide, claim_C5_batch_index_aligned goodBatchRequest (fun i => [i]) (by decide)⟩

/-- Inserting a key makes it present with the inserted value. -/
theorem Dict.lookupKey_insertKey_self (d : Dict) (k v : String) :
    (d.insertKey k v).lookupKey k = some v := by
  induction d with
  | nil => simp [Dict.insertKey, Dict.lookupKey]
  | cons p rest ih =>
    obtain ⟨k0, v0⟩ := p
    by_cases h : k0 = k
    · simp [Dict.insertKey, Dict.lookupKey, h]
    · simp [Dict.insertKey, Dict.lookupKey, h, ih]


/-- Inserting one key leaves every other key unchanged. -/
theorem Dict.lookupKey_insertKey_ne (d : Dict) (k v k2 : String) (h : k2 ≠ k) :
    (d.insertKey k v).lookupKey k2 = d.lookupKey k2 := by
  have hk : k ≠ k2 := Ne.symm h
  induction d with
  | nil => simp [Dict.insertKey, Dict.lookupKey, hk]
  | cons p rest ih =>
    obtain ⟨k0, v0⟩ := p
    by_cases h0 : k0 = k
    · subst h0
      rw [Dict.insertKey, if_pos rfl, Dict.lookupKey, Dict.lookupKey, if_neg hk, if_neg hk]
    · rw [Dict.insertKey, if_neg h0, Dict.lookupKey, Dict.lookupKey, ih]

/-- Absent keys look up to `none`. -/
theorem Dict.lookupKey_eq_none_of_not_contains (d : Dict) (k : String)
    (h : d.containsKey k = false) : d.lookupKey k = none := by
  rw [Dict.containsKey] at h
  cases hl : d.lookupKey k with
  | none => rfl
  | some v => rw [hl] at h; simp at h

/-- Characterization of the single-URL handler: the token it emits decodes,
under the password the handler sealed with, to the request's fields with the
conditionally injected query parameters. -/
theorem generate_url_decode (request : GenerateUrlRequest) (nonce : Bytes) :
    decodeToken (generate_url request nonce).url.token
      ((handlerOf request.api_password).map (fun hd => hd.password)) =
    some { destination_url := request.destination_url
           endpoint := request.endpoint
           query_params :=
             if !(request.query_params.containsKey "api_password") &&
                 pyTruthy request.api_password
               then request.query_params.insertKey "api_password"
                 (request.api_password.getD "")
               else request.query_params
           request_headers := request.request_headers
           response_headers := request.response_headers
           expiration := request.expiration
           ip := request.ip
           filename := request.filename
           api_password := (handlerOf request.api_password).map (fun hd => hd.password) } := by
  simp only [generate_url, encode_mediaflow_proxy_url]
  exact decodeToken_encodeToken _ _ _

/-- Characterization of the per-item batch processing: the token emitted for
an item decodes, under the shared password, to the item's fields merged with
the shared defaults. -/
theorem process_url_item_decode (request : GenerateMultiUrlRequest)
    (item : MultiUrlRequestItem) (nonce : Bytes) :
    decodeToken (_process_url_item (handlerOf request.api_password) request item nonce).token
      ((handlerOf request.api_password).map (fun hd => hd.password)) =
    some { destination_url := item.destination_url
           endpoint := item.endpoint
           query_params :=
             if !(item.query_params.containsKey "api_password") &&
                 pyTruthy request.api_password
               then item.query_params.insertKey "api_password"
                 (request.api_password.getD "")
               else item.query_params
           request_headers := item.request_headers
           response_headers := item.response_headers
           expiration := request.expiration
           ip := request.ip
           filename := item.filename
           api_password := (handlerOf request.api_password).map (fun hd => hd.password) } := by
  simp only [_process_url_item, encode_mediaflow_proxy_url]
  exact decodeToken_encodeToken _ _ _

/-- Lookup behaviour of the conditional injection shared verbatim by the
single-URL path (main.py lines 118-120) and the batch per-item path (lines
151-153): the reserved key holds the shared password exactly when it was
absent and the shared password is truthy, and every other key is
unchanged. -/
theorem injectedParams_lookup (qp : Dict) (ap : Option String) :
    (if !(qp.containsKey "api_password") && pyTruthy ap
        then qp.insertKey "api_password" (ap.getD "")
        else qp).lookupKey "api_password" =
      (if qp.containsKey "api_password" || !(pyTruthy ap)
        then qp.lookupKey "api_password"
        else ap) ∧
    (∀ k, k ≠ "api_password" →
      (if !(qp.containsKey "api_password") && pyTruthy ap
          then qp.insertKey "api_password" (ap.getD "")
          else qp).lookupKey k = qp.lookupKey k) := by
  constructor
  · by_cases hc : (!(qp.containsKey "api_password") && pyTruthy ap) = true
    · rcases Bool.and_eq_true_iff.mp hc with ⟨h1, h2⟩
      have hnc : qp.containsKey "api_password" = false := by
        simpa using h1
      cases hv : ap with
      | none => rw [hv] at h2; simp [pyTruthy] at h2
      | some s =>
        rw [hv] at h2
        simp [hnc, h2, hv, Dict.lookupKey_insertKey_self]
    · have hcf : (!(qp.containsKey "api_password") && pyTruthy ap) = false := by
        simpa using hc
      have hor : (qp.containsKey "api_password" || !(pyTruthy ap)) = true := by
        rcases Bool.and_eq_false_iff.mp hcf with h1 | h1
        · simp at h1
          simp [h1]
        · simp [h1]
      simp [hcf, hor]
  · intro k hk
    by_cases hc : (!(qp.containsKey "api_password") && pyTruthy ap) = true
    · simp only [hc, if_true]
      exact Dict.lookupKey_insertKey_ne _ _ _ _ hk
    · have hcf : (!(qp.containsKey "api_password") && pyTruthy ap) = false := by
        simpa using hc
      simp [hcf]

/-- C6: in both the single-URL path and the batch path, the encoded token
carries the shared password under the reserved query key exactly when a
shared password is configured and the request (respectively the batch item)
did not already set that key; an already-present value for the reserved
key, and every other key, are embedded unchanged. -/
theorem claim_C6_password_injection (request : GenerateUrlRequest) (nonce : Bytes)
    (breq : GenerateMultiUrlRequest) (bnonces : Nat → Bytes) (i : Nat)
    (h : i < breq.urls.length) :
    (∃ p, decodeToken (generate_url request nonce).url.token
        ((handlerOf request.api_password).map (fun hd => hd.password)) = some p ∧
      p.query_params.lookupKey "api_password" =
        (if request.query_params.containsKey "api_password" || !(pyTruthy request.api_password)
          then request.query_params.lookupKey "api_password"
          else request.api_password) ∧
      (∀ k, k ≠ "api_password" →
        p.query_params.lookupKey k = request.query_params.lookupKey k)) ∧
    (∃ u p, (generate_urls breq bnonces).urls[i]? = some u ∧
      decodeToken u.token ((handlerOf breq.api_password).map (fun hd => hd.password)) =
        some p ∧
      p.query_params.lookupKey "api_password" =
        (if (breq.urls.get ⟨i, h⟩).query_params.containsKey "api_password" ||
            !(pyTruthy breq.api_password)
          then (breq.urls.get ⟨i, h⟩).query_params.lookupKey "api_password"
          else breq.api_password) ∧
      (∀ k, k ≠ "api_password" →
        p.query_params.lookupKey k = (breq.urls.get ⟨i, h⟩).query_params.lookupKey k)) := by
  constructor
  · exact ⟨_, generate_url_decode request nonce,
      (injectedParams_lookup request.query_params request.api_password).1,
      (injectedParams_lookup request.query_params request.api_password).2⟩
  · refine ⟨_process_url_item (handlerOf breq.api_password) breq
        (breq.urls.get ⟨i, h⟩) (bnonces i), _, ?_,
      process_url_item_decode breq (breq.urls.get ⟨i, h⟩) (bnonces i),
      (injectedParams_lookup (breq.urls.get ⟨i, h⟩).query_params breq.api_password).1,
      (injectedParams_lookup (breq.urls.get ⟨i, h⟩).query_params breq.api_password).2⟩
    simp [generate_urls, List.getElem?_mapIdx, h, List.get_eq_getElem]

/-- Single request used by the C6 witness: no caller-supplied reserved key
and a configured shared password. -/
def sampleSingleRequest : GenerateUrlRequest :=
  { mediaflow_proxy_url := "https://proxy.example"
    endpoint := "/proxy/stream"
    destination_url := "https://example.org/video.mp4"
    query_params := [("quality", "high")]
    request_headers := [("referer", "https://example.org")]
    response_headers := []
    api_password := some "pw"
    expiration := some 1735689600
    ip := none
    filename := some "video.mp4" }

/-- Witness for C6 at a concrete single request and a concrete batch whose
first item lacks the reserved key, both with a configured shared password. -/
theorem claim_C6_password_injection_witness :
    0 < goodBatchRequest.urls.length ∧
      ((∃ p, decodeToken (generate_url sampleSingleRequest [4, 7]).url.token
          ((handlerOf sampleSingleRequest.api_password).map (fun hd => hd.password)) =
            some p ∧
        p.query_params.lookupKey "api_password" =
          (if sampleSingleRequest.query_params.containsKey "api_password" ||
              !(pyTruthy sampleSingleRequest.api_password)
            then sampleSingleRequest.query_params.lookupKey "api_password"
            else sampleSingleRequest.api_password) ∧
        (∀ k, k ≠ "api_password" →
          p.query_params.lookupKey k = sampleSingleRequest.query_params.lookupKey k)) ∧
      (∃ u p, (generate_urls goodBatchRequest (fun j => [j, 5])).urls[0]? = some u ∧
        decodeToken u.token
          ((handlerOf goodBatchRequest.api_password).map (fun hd => hd.password)) =
            some p ∧
        p.query_params.lookupKey "api_password" =
          (if (goodBatchRequest.urls.get ⟨0, by decide⟩).query_params.containsKey
                "api_password" || !(pyTruthy goodBatchRequest.api_password)
            then (goodBatchRequest.urls.get ⟨0, by decide⟩).query_params.lookupKey
              "api_password"
            else goodBatchRequest.api_password) ∧
        (∀ k, k ≠ "api_password" →
          p.query_params.lookupKey k =
            (goodBatchRequest.urls.get ⟨0, by decide⟩).query_params.lookupKey k))) :=
  ⟨by decide, claim_C6_password_injection sampleSingleRequest [4, 7] goodBatchRequest
    (fun j => [j, 5]) 0 (by decide)⟩

/-- C7: in the token generated for batch item i, every field other than
query_params that the item carries (endpoint, destination_url, both header
mappings, filename) takes its item-level value, while expiration and ip,
which have no item-level slot in the batch item shape, take the shared
batch-level value. -/
theorem claim_C7_item_field_precedence (request : GenerateMultiUrlRequest)
    (nonces : Nat → Bytes) (i : Nat) (h : i < request.urls.length) :
    ∃ u p, (generate_urls request nonces).urls[i]? = some u ∧
      decodeToken u.token ((handlerOf request.api_password).map (fun hd => hd.password)) =
        some p ∧
      p.endpoint = (request.urls.get ⟨i, h⟩).endpoint ∧
      p.destination_url = (request.urls.get ⟨i, h⟩).destination_url ∧
      p.request_headers = (request.urls.get ⟨i, h⟩).request_headers ∧
      p.response_headers = (request.urls.get ⟨i, h⟩).response_headers ∧
      p.filename = (request.urls.get ⟨i, h⟩).filename ∧
      p.expiration = request.expiration ∧
      p.ip = request.ip := by
  refine ⟨_process_url_item (handlerOf request.api_password) request
      (request.urls.get ⟨i, h⟩) (nonces i), _, ?_,
    process_url_item_decode request (request.urls.get ⟨i, h⟩) (nonces i),
    rfl, rfl, rfl, rfl, rfl, rfl, rfl⟩
  simp [generate_urls, List.getElem?_mapIdx, h, List.get_eq_getElem]

/-- Witness for C7 at a concrete batch and index. -/
theorem claim_C7_item_field_precedence_witness :
    0 < goodBatchRequest.urls.length ∧
      ∃ u p, (generate_urls goodBatchRequest (fun i => [i, 2])).urls[0]? = some u ∧
        decodeToken u.token
          ((handlerOf goodBatchRequest.api_password).map (fun hd => hd.password)) = some p ∧
        p.endpoint = (goodBatchRequest.urls.get ⟨0, by decide⟩).endpoint ∧
        p.destination_url = (goodBatchRequest.urls.get ⟨0, by decide⟩).destination_url ∧
        p.request_headers = (goodBatchRequest.urls.get ⟨0, by decide⟩).request_headers ∧
        p.response_headers = (goodBatchRequest.urls.get ⟨0, by decide⟩).response_headers ∧
        p.filename = (goodBatchRequest.urls.get ⟨0, by decide⟩).filename ∧
        p.expiration = goodBatchRequest.expiration ∧
        p.ip = goodBatchRequest.ip :=
  ⟨by decide, claim_C7_item_field_precedence goodBatchRequest (fun i => [i, 2]) 0 (by decide)⟩

/-- C8: the deprecated alias endpoint returns, under the key encoded_url,
exactly the value the non-deprecated endpoint returns under the key url for
the same request; the two differ only in the result key name. -/
theorem claim_C8_alias_same_url (request : GenerateUrlRequest) (nonce : Bytes) :
    (generate_encrypted_or_encoded_url request nonce).encoded_url =
      (generate_url request nonce).url := rfl

/-- C10: every batch item's token is sealed under the encryption handler
built once from the shared batch-level password: it decodes under that
shared password even when the item's query_params carry a different value
for the reserved key, and that item-level value is embedded as the query
parameter without ever becoming the sealing key. -/
theorem claim_C10_shared_encryption_key (request : GenerateMultiUrlRequest)
    (nonces : Nat → Bytes) (i : Nat) (h : i < request.urls.length) :
    ∃ u p, (generate_urls request nonces).urls[i]? = some u ∧
      decodeToken u.token ((handlerOf request.api_password).map (fun hd => hd.password)) =
        some p ∧
      ((request.urls.get ⟨i, h⟩).query_params.containsKey "api_password" = true →
        p.query_params.lookupKey "api_password" =
          (request.urls.get ⟨i, h⟩).query_params.lookupKey "api_password") := by
  refine ⟨_process_url_item (handlerOf request.api_password) request
      (request.urls.get ⟨i, h⟩) (nonces i), _, ?_,
    process_url_item_decode request (request.urls.get ⟨i, h⟩) (nonces i), ?_⟩
  · simp [generate_urls, List.getElem?_mapIdx, h, List.get_eq_getElem]
  · intro hck
    rw [List.get_eq_getElem] at hck
    simp [hck]

/-- Batch used by the C10 witness: the item carries its own value under the
reserved key, different from the shared password. -/
def conflictBatchRequest : GenerateMultiUrlRequest :=
  { mediaflow_proxy_url := "https://proxy.example"
    api_password := some "sharedpw"
    expiration := none
    ip := none
    urls := [{ endpoint := "/proxy/stream"
               destination_url := "https://example.org/a.mp4"
               query_params := [("api_password", "itemlevel")]
               request_headers := []
               response_headers := []
               filename := none }] }

/-- Witness for C10 at a batch whose item carries a conflicting value under
the reserved key. -/
theorem claim_C10_shared_encryption_key_witness :
    0 < conflictBatchRequest.urls.length ∧
      ∃ u p, (generate_urls conflictBatchRequest (fun _ => [8])).urls[0]? = some u ∧
        decodeToken u.token
          ((handlerOf conflictBatchRequest.api_password).map (fun hd => hd.password)) =
          some p ∧
        ((conflictBatchRequest.urls.get ⟨0, by decide⟩).query_params.containsKey
            "api_password" = true →
          p.query_params.lookupKey "api_password" =
            (conflictBatchRequest.urls.get ⟨0, by decide⟩).query_params.lookupKey
              "api_password") :=
  ⟨by decide, claim_C10_shared_encryption_key conflictBatchRequest (fun _ => [8]) 0 (by decide)⟩

/-- Heap of Python dict objects: cell r holds the dict object whose id is r;
references are indices into the cell list.  This models the aliasing and
in-place mutation semantics of Python dicts that the value-level embedding
above abstracts away. -/
structure DictHeap where
  cells : List Dict
deriving DecidableEq, Repr

/-- Read the dict object a reference points to. -/
def DictHeap.read (h : DictHeap) (r : Nat) : Dict := (h.cells[r]?).getD []

/-- Overwrite in place the dict object a reference points to. -/
def DictHeap.write (h : DictHeap) (r : Nat) (d : Dict) : DictHeap := ⟨h.cells.set r d⟩

/-- Allocate a fresh dict object, returning its reference. -/
def DictHeap.alloc (h : DictHeap) (d : Dict) : Nat × DictHeap :=
  (h.cells.length, ⟨h.cells ++ [d]⟩)

/-- Heap-level embedding of the query_params handling shared verbatim by
`generate_url` (main.py lines 118-120) and `_process_url_item` (lines
151-153): `query_params = <request dict>.copy()` allocates a fresh dict
object with the same contents, and the conditional assignment
`query_params["api_password"] = request.api_password` mutates that fresh
object in place.  Returns the reference to the local dict and the heap
after the call. -/
def copyAndInject (h : DictHeap) (qpRef : Nat) (api_password : Option String) :
    Nat × DictHeap :=
  let (r, h1) := h.alloc (h.read qpRef)
  let h2 :=
    if !((h1.read r).containsKey "api_password") && pyTruthy api_password then
      h1.write r ((h1.read r).insertKey "api_password" (api_password.getD ""))
    else h1
  (r, h2)

/-- Reading the freshly allocated copy right after allocation yields the
copied contents. -/
theorem DictHeap.read_alloc (h : DictHeap) (d : Dict) :
    (h.alloc d).2.read (h.alloc d).1 = d := by
  rw [DictHeap.alloc, DictHeap.read]
  simp only
  rw [List.getElem?_concat_length]
  rfl

/-- Allocation does not disturb existing cells. -/
theorem DictHeap.read_alloc_lt (h : DictHeap) (d : Dict) (r : Nat)
    (hr : r < h.cells.length) : (h.alloc d).2.read r = h.read r := by
  rw [DictHeap.alloc, DictHeap.read, DictHeap.read]
  simp only
  rw [List.getElem?_append, if_pos hr]

/-- C9: the copy-then-inject step shared by single and batch generation
never mutates the caller-supplied query_params dict: after the call the
request object's dict reads back unchanged, the local dict is a distinct
object, and it holds the (conditionally) injected copy. -/
theorem claim_C9_request_params_unchanged (h : DictHeap) (qpRef : Nat)
    (api_password : Option String) (hr : qpRef < h.cells.length) :
    (copyAndInject h qpRef api_password).2.read qpRef = h.read qpRef ∧
      (copyAndInject h qpRef api_password).1 ≠ qpRef ∧
      (copyAndInject h qpRef api_password).2.read (copyAndInject h qpRef api_password).1 =
        (if !((h.read qpRef).containsKey "api_password") && pyTruthy api_password
          then (h.read qpRef).insertKey "api_password" (api_password.getD "")
          else h.read qpRef) := by
  have hfresh : (h.alloc (h.read qpRef)).2.read (h.alloc (h.read qpRef)).1 = h.read qpRef :=
    DictHeap.read_alloc h (h.read qpRef)
  rw [copyAndInject]
  simp only [hfresh]
  by_cases hc : (!((h.read qpRef).containsKey "api_password") && pyTruthy api_password) = true
  · simp only [hc, if_true]
    refine ⟨?_, ?_, ?_⟩
    · rw [DictHeap.alloc, DictHeap.write, DictHeap.read, DictHeap.read]
      simp only
      rw [List.getElem?_set_ne (by omega : h.cells.length ≠ qpRef)]
      rw [List.getElem?_append, if_pos hr]
    · rw [DictHeap.alloc]
      simp only
      omega
    · rw [DictHeap.alloc, DictHeap.write, DictHeap.read]
      simp only
      rw [List.getElem?_set_eq_of_lt
        ((h.read qpRef).insertKey "api_password" (api_password.getD "")) (by simp)]
      rfl
  · simp only [hc, if_false]
    refine ⟨?_, ?_, ?_⟩
    · exact DictHeap.read_alloc_lt h (h.read qpRef) qpRef hr
    · rw [DictHeap.alloc]
      simp only
      omega
    · exact DictHeap.read_alloc h (h.read qpRef)

/-- Heap used by the C9 witness: a single request dict with one entry. -/
def sampleHeap : DictHeap := ⟨[[("quality", "high")]]⟩

/-- Witness for C9 at a concrete heap, reference and shared password. -/
theorem claim_C9_request_params_unchanged_witness :
    0 < sampleHeap.cells.length ∧
      ((copyAndInject sampleHeap 0 (some "pw")).2.read 0 = sampleHeap.read 0 ∧
        (copyAndInject sampleHeap 0 (some "pw")).1 ≠ 0 ∧
        (copyAndInject sampleHeap 0 (some "pw")).2.read (copyAndInject sampleHeap 0 (some "pw")).1 =
          (if !((sampleHeap.read 0).containsKey "api_password") && pyTruthy (some "pw")
            then (sampleHeap.read 0).insertKey "api_password" ((some "pw").getD "")
            else sampleHeap.read 0)) :=
  ⟨by decide, claim_C9_request_params_unchanged sampleHeap 0 (some "pw") (by decide)⟩
